import Mathlib

/-!
Shallow embedding of the project-management widget sources
(`src/unnamed/part_000`, `src/unnamed/part_001`).

* `ProjectStatus`, `Project` embed `models/project.ts` (`part_000`).
* `validate` embeds the `validate` function (`part_001` lines 56-75),
  including JavaScript truthiness on the configuration fields and the
  `value.toString().trim().length > 0` required check.  JavaScript string
  values are `JsValue.str`, numeric values `JsValue.num` (modelled as `Int`;
  `Number.prototype.toString` on an integer is `Int.repr`).
* `StoreState`, `addListener`, `addProject`, `updateProject` embed the
  `State`/`ProjectState` classes (`part_001` lines 185-229).  Listener
  callbacks are opaque labels (`Nat`); a notification pass is the trace of
  `(listener, snapshot)` events produced by
  `this.listeners.forEach((l) => l(this.projects.slice()))`.
  `Math.random().toString()` is a nondeterministic draw, passed to
  `addProject` as the explicit argument `newId`.
  `updateProject` returns `Except JsFault …`: on an id with no match,
  `filter(...)[0]` is `undefined` and `project.status = status` throws a
  `TypeError` before any mutation or notification.
* `peopleCount` embeds the `ProjectItem.peopleCount` getter
  (`part_001` lines 89-94).
-/

/-! ## Data model (`part_000`) -/

inductive ProjectStatus
  | ACTIVE
  | FINISHED
deriving DecidableEq

structure Project where
  id : String
  title : String
  description : String
  people : Int
  status : ProjectStatus
deriving DecidableEq

/-! ## JavaScript value and string helpers -/

/-- A JavaScript `string | number` value (`ValidatorConfig.value`). -/
inductive JsValue
  | str (s : String)
  | num (n : Int)
deriving DecidableEq

/-- The whitespace characters recognised by `String.prototype.trim`
(space, tab, line feed, carriage return, vertical tab, form feed,
no-break space, BOM). -/
def isJsWhitespace (c : Char) : Bool :=
  c == ' ' || c == '\t' || c == '\n' || c == '\r' ||
  c == '\u000B' || c == '\u000C' || c == '\u00A0' || c == '\uFEFF'

/-- JavaScript `String.prototype.trim`: drop leading and trailing
whitespace. -/
def jsTrim (s : String) : String :=
  ⟨((s.data.dropWhile isJsWhitespace).reverse.dropWhile isJsWhitespace).reverse⟩

/-- JavaScript `value.toString()` for a `string | number` value. -/
def jsToString : JsValue → String
  | .str s => s
  | .num n => Int.repr n

/-- JavaScript truthiness of a possibly-undefined boolean
(`config.required`). -/
def truthyBool : Option Bool → Bool
  | some b => b
  | none => false

/-! ## The validator (`part_001` lines 45-75) -/

structure ValidatorConfig where
  value : JsValue
  required : Option Bool := none
  minLength : Option Int := none
  maxLength : Option Int := none
  min : Option Int := none
  max : Option Int := none
deriving DecidableEq

/-- Embedding of `validate` (`part_001` lines 56-75).  Each step mirrors one
`if (…) { isValid = isValid && … }` block; a numeric constraint guard
`if (config.minLength && typeof config.value === "string")` is JavaScript
truthiness, so a bound that is present but `0` does not enter the block. -/
def validate (config : ValidatorConfig) : Bool :=
  let isValid := true
  let isValid :=
    if truthyBool config.required then
      isValid && decide ((jsTrim (jsToString config.value)).length > 0)
    else isValid
  let isValid :=
    match config.minLength, config.value with
    | some m, .str s =>
      if m != 0 then isValid && decide ((s.length : Int) ≥ m) else isValid
    | _, _ => isValid
  let isValid :=
    match config.maxLength, config.value with
    | some m, .str s =>
      if m != 0 then isValid && decide ((s.length : Int) ≤ m) else isValid
    | _, _ => isValid
  let isValid :=
    match config.min, config.value with
    | some m, .num n =>
      if m != 0 then isValid && decide (n ≥ m) else isValid
    | _, _ => isValid
  let isValid :=
    match config.max, config.value with
    | some m, .num n =>
      if m != 0 then isValid && decide (n ≤ m) else isValid
    | _, _ => isValid
  isValid

/-- Spec-side reading of the validator contract (section 4.1 of the spec):
every constraint that is *specified* (present in the configuration) is
enforced, whatever its value; in particular `min: 0` or `minLength: 0`
still count.  Used to compare the spec's words with `validate`. -/
def specifiedConstraintsPass (config : ValidatorConfig) : Bool :=
  (match config.required with
   | some true => decide ((jsTrim (jsToString config.value)).length > 0)
   | _ => true) &&
  (match config.minLength, config.value with
   | some m, .str s => decide ((s.length : Int) ≥ m)
   | _, _ => true) &&
  (match config.maxLength, config.value with
   | some m, .str s => decide ((s.length : Int) ≤ m)
   | _, _ => true) &&
  (match config.min, config.value with
   | some m, .num n => decide (n ≥ m)
   | _, _ => true) &&
  (match config.max, config.value with
   | some m, .num n => decide (n ≤ m)
   | _, _ => true)

/-- Spec-side reading amended for JavaScript truthiness: a constraint is
enforced only when it is present *and truthy* (`required` must be `true`;
a numeric bound must be nonzero). -/
def truthyConstraintsPass (config : ValidatorConfig) : Bool :=
  (match config.required with
   | some true => decide ((jsTrim (jsToString config.value)).length > 0)
   | _ => true) &&
  (match config.minLength, config.value with
   | some m, .str s => if m != 0 then decide ((s.length : Int) ≥ m) else true
   | _, _ => true) &&
  (match config.maxLength, config.value with
   | some m, .str s => if m != 0 then decide ((s.length : Int) ≤ m) else true
   | _, _ => true) &&
  (match config.min, config.value with
   | some m, .num n => if m != 0 then decide (n ≥ m) else true
   | _, _ => true) &&
  (match config.max, config.value with
   | some m, .num n => if m != 0 then decide (n ≤ m) else true
   | _, _ => true)

/-- C1 (counterexample): the contract "every constraint that is specified is
enforced, in particular `min: 0`" fails on the code: with value `-5` and
`min: 0`, the truthiness guard `if (config.min …)` skips the bound, so
`validate` returns `true` although the specified constraint `-5 >= 0` fails. -/
theorem validate_min_zero_counterexample :
    validate { value := JsValue.num (-5), min := some 0 } = true ∧
    specifiedConstraintsPass { value := JsValue.num (-5), min := some 0 } = false := by
  decide

/-- C1 (amended): `validate` returns `true` iff every constraint that is
specified *with a truthy value* passes: `required` counts only when `true`,
and a numeric bound (`minLength`, `maxLength`, `min`, `max`) counts only when
nonzero; in particular `min: 0` and `minLength: 0` are skipped, not
enforced.  `minLength`/`maxLength` apply only to string values, `min`/`max`
only to numeric values, and unset constraints are skipped. -/
theorem validate_iff_truthy_constraints_pass (config : ValidatorConfig) :
    validate config = truthyConstraintsPass config := by
  obtain ⟨v, req, minL, maxL, mn, mx⟩ := config
  rcases req with _ | (_ | _) <;> rcases v with s | n <;>
      rcases minL with _ | m1 <;> rcases maxL with _ | m2 <;>
      rcases mn with _ | m3 <;> rcases mx with _ | m4 <;>
      simp only [validate, truthyConstraintsPass, truthyBool] <;>
      (repeat' split) <;>
      simp_all [Bool.and_assoc]

/-- C8: the validator satisfies the spec's four test vectors: `"  "` with
`required: true` is rejected, `"hi"` with `minLength: 5` is rejected, `3`
with `min: 1, max: 5` is accepted, and `6` with `max: 5` is rejected. -/
theorem validate_spec_test_vectors :
    validate { value := JsValue.str "  ", required := some true } = false ∧
    validate { value := JsValue.str "hi", minLength := some 5 } = false ∧
    validate { value := JsValue.num 3, min := some 1, max := some 5 } = true ∧
    validate { value := JsValue.num 6, max := some 5 } = false := by
  decide

/-! ## Decimal representations contain no whitespace (for the `required`
check on numeric values) -/

lemma isJsWhitespace_digitChar (d : Nat) :
    isJsWhitespace (Nat.digitChar d) = false := by
  rcases Nat.lt_or_ge d 16 with h | h
  · interval_cases d <;> decide
  · rw [Nat.digitChar]
    repeat rw [if_neg (by omega)]
    decide

lemma toDigitsCore_not_ws (b : Nat) : ∀ (f n : Nat) (ds : List Char),
    (∀ c ∈ ds, isJsWhitespace c = false) →
    ∀ c ∈ Nat.toDigitsCore b f n ds, isJsWhitespace c = false := by
  intro f
  induction f with
  | zero =>
    intro n ds h
    simpa [Nat.toDigitsCore] using h
  | succ f ih =>
    intro n ds h c hc
    simp only [Nat.toDigitsCore] at hc
    split at hc
    · rcases List.mem_cons.mp hc with rfl | hmem
      · exact isJsWhitespace_digitChar _
      · exact h _ hmem
    · refine ih _ _ ?_ c hc
      intro x hx
      rcases List.mem_cons.mp hx with rfl | hmem
      · exact isJsWhitespace_digitChar _
      · exact h _ hmem

lemma toDigitsCore_ne_nil (b : Nat) : ∀ (f n : Nat) (ds : List Char),
    ds ≠ [] → Nat.toDigitsCore b f n ds ≠ [] := by
  intro f
  induction f with
  | zero =>
    intro n ds h
    simpa [Nat.toDigitsCore] using h
  | succ f ih =>
    intro n ds h
    simp only [Nat.toDigitsCore]
    split
    · simp
    · exact ih _ _ (by simp)

lemma toDigitsCore_succ_ne_nil (b f n : Nat) (ds : List Char) :
    Nat.toDigitsCore b (f + 1) n ds ≠ [] := by
  simp only [Nat.toDigitsCore]
  split
  · simp
  · exact toDigitsCore_ne_nil b f _ _ (by simp)

lemma toDigits_ne_nil (b n : Nat) : Nat.toDigits b n ≠ [] := by
  rw [Nat.toDigits]
  exact toDigitsCore_succ_ne_nil b n n []

lemma natRepr_data_ne_nil (n : Nat) : (Nat.repr n).data ≠ [] :=
  toDigits_ne_nil 10 n

lemma natRepr_not_ws (n : Nat) :
    ∀ c ∈ (Nat.repr n).data, isJsWhitespace c = false :=
  toDigitsCore_not_ws 10 (n + 1) n [] (by simp)

lemma intRepr_exists_not_ws (n : Int) :
    ∃ c ∈ (Int.repr n).data, isJsWhitespace c = false := by
  cases n with
  | ofNat m =>
    obtain ⟨c, hc⟩ := List.exists_mem_of_ne_nil _ (natRepr_data_ne_nil m)
    exact ⟨c, hc, natRepr_not_ws m c hc⟩
  | negSucc m =>
    refine ⟨'-', ?_, by decide⟩
    show '-' ∈ ("-" ++ Nat.repr (m + 1)).data
    rw [String.data_append]
    exact List.mem_append_left _ (by decide)

/-! ## Trimming a string with a non-whitespace character is nonempty -/

lemma exists_not_of_dropWhile (p : Char → Bool) :
    ∀ l : List Char, (∃ c ∈ l, p c = false) →
      ∃ c ∈ l.dropWhile p, p c = false := by
  intro l
  induction l with
  | nil => simp
  | cons a l ih =>
    intro h
    by_cases ha : p a = true
    · rw [List.dropWhile_cons_of_pos ha]
      apply ih
      rcases h with ⟨c, hc, hcp⟩
      rcases List.mem_cons.mp hc with rfl | hm
      · rw [ha] at hcp; cases hcp
      · exact ⟨c, hm, hcp⟩
    · rw [List.dropWhile_cons_of_neg ha]
      exact ⟨a, List.mem_cons_self a l, by simpa using ha⟩

lemma jsTrim_data_ne_nil {s : String}
    (h : ∃ c ∈ s.data, isJsWhitespace c = false) : (jsTrim s).data ≠ [] := by
  have h1 := exists_not_of_dropWhile isJsWhitespace s.data h
  have h2 : ∃ c ∈ (s.data.dropWhile isJsWhitespace).reverse,
      isJsWhitespace c = false := by
    obtain ⟨c, hc, hcp⟩ := h1
    exact ⟨c, List.mem_reverse.mpr hc, hcp⟩
  have h3 := exists_not_of_dropWhile isJsWhitespace _ h2
  obtain ⟨c, hc, _⟩ := h3
  have : ((s.data.dropWhile isJsWhitespace).reverse.dropWhile isJsWhitespace) ≠ [] :=
    List.ne_nil_of_mem hc
  simpa [jsTrim] using this

/-- C10: for every number `n` (including `0` and negative numbers), the
`required` constraint is satisfied: `validate` with value `n` and
`required: true` (and no other constraints) returns `true`, because the
check runs on the number's non-empty decimal string form. -/
theorem validate_required_numeric (n : Int) :
    validate { value := JsValue.num n, required := some true } = true := by
  have h : (jsTrim (Int.repr n)).data ≠ [] :=
    jsTrim_data_ne_nil (intRepr_exists_not_ws n)
  have hlen : (jsTrim (Int.repr n)).length > 0 := by
    have hlen0 : (jsTrim (Int.repr n)).length = (jsTrim (Int.repr n)).data.length := rfl
    rw [hlen0]
    exact List.length_pos.mpr h
  simp [validate, truthyBool, jsToString, hlen]

/-! ## The observable state store (`part_001` lines 185-229) -/

/-- One event of a notification pass: a registered listener (an opaque
label) called with a snapshot of the full project list. -/
structure Notification where
  listener : Nat
  snapshot : List Project
deriving DecidableEq

/-- The state of the `ProjectState` singleton: the ordered project list and
the listener callbacks in registration order. -/
structure StoreState where
  projects : List Project
  listeners : List Nat
deriving DecidableEq

/-- `State.addListener` (`part_001` lines 190-192): `listeners.push(fn)`. -/
def addListener (st : StoreState) (listenerFn : Nat) : StoreState :=
  { st with listeners := st.listeners ++ [listenerFn] }

/-- `this.listeners.forEach((l) => l(this.projects.slice()))`: the trace of
listener calls, each with a copy of the full project list. -/
def notifyAll (st : StoreState) : List Notification :=
  st.listeners.map fun l => { listener := l, snapshot := st.projects }

/-- `ProjectState.addProject` (`part_001` lines 211-222).  `newId` is the
value of the `Math.random().toString()` draw.  Returns the new store state
and the notification trace. -/
def addProject (st : StoreState) (newId title description : String)
    (numPeople : Int) : StoreState × List Notification :=
  let newProject : Project :=
    { id := newId, title := title, description := description,
      people := numPeople, status := ProjectStatus.ACTIVE }
  let st2 : StoreState := { st with projects := st.projects ++ [newProject] }
  (st2, notifyAll st2)

/-- The JavaScript fault raised by `project.status = status` when
`this.projects.filter((p) => p.id === id)[0]` is `undefined`. -/
inductive JsFault
  | typeError
deriving DecidableEq

/-- Effect on the project array of mutating, in place, the object found by
`filter((p) => p.id === id)[0]`: the first project whose id matches gets the
new status; everything else is untouched. -/
def setStatusFirst : List Project → String → ProjectStatus → List Project
  | [], _, _ => []
  | p :: ps, id, status =>
    if p.id == id then { p with status := status } :: ps
    else p :: setStatusFirst ps id status

/-- `ProjectState.updateProject` (`part_001` lines 224-228).  When the
filter result is empty the subscripting yields `undefined` and the status
assignment throws a `TypeError` before any mutation or notification;
otherwise the first match is mutated and all listeners are notified. -/
def updateProject (st : StoreState) (id : String) (status : ProjectStatus) :
    Except JsFault (StoreState × List Notification) :=
  match st.projects.filter (fun p => p.id == id) with
  | [] => Except.error JsFault.typeError
  | _ :: _ =>
    let st2 : StoreState :=
      { st with projects := setStatusFirst st.projects id status }
    Except.ok (st2, notifyAll st2)

/-- `ProjectItem.peopleCount` (`part_001` lines 89-94). -/
def peopleCount (project : Project) : String :=
  if project.people == 1 then "1 person assigned"
  else Int.repr project.people ++ " people assigned"

/-- C2: `updateProject` with an id matching no stored project: the filter
lookup yields no match and the status assignment on `undefined` is an
unguarded `TypeError`; the operation neither completes as a no-op nor
returns an error value, the project list is untouched and no listener is
notified (the fault propagates before any mutation or notification pass). -/
theorem updateProject_unknown_id (st : StoreState) (id : String)
    (status : ProjectStatus) (h : ∀ p ∈ st.projects, p.id ≠ id) :
    updateProject st id status = Except.error JsFault.typeError := by
  have hfil : st.projects.filter (fun p => p.id == id) = [] := by
    rw [List.filter_eq_nil_iff]
    intro p hp
    simpa using h p hp
  simp only [updateProject, hfil]

theorem updateProject_unknown_id_witness :
    (∀ p ∈ ([] : List Project), p.id ≠ "missing") ∧
    updateProject { projects := [], listeners := [] } "missing"
      ProjectStatus.FINISHED = Except.error JsFault.typeError :=
  ⟨by simp,
   updateProject_unknown_id { projects := [], listeners := [] } "missing"
     ProjectStatus.FINISHED (by simp)⟩

lemma exists_first_match (id : String) :
    ∀ ps : List Project, (∃ p ∈ ps, p.id = id) →
      ∃ pre p post, ps = pre ++ p :: post ∧ (∀ q ∈ pre, q.id ≠ id) ∧
        p.id = id := by
  intro ps
  induction ps with
  | nil => simp
  | cons a l ih =>
    intro h
    by_cases ha : a.id = id
    · exact ⟨[], a, l, rfl, by simp, ha⟩
    · have h2 : ∃ p ∈ l, p.id = id := by
        rcases h with ⟨p, hp, hpid⟩
        rcases List.mem_cons.mp hp with rfl | hm
        · exact absurd hpid ha
        · exact ⟨p, hm, hpid⟩
      obtain ⟨pre, p, post, hps, hpre, hp⟩ := ih h2
      refine ⟨a :: pre, p, post, by rw [hps, List.cons_append], ?_, hp⟩
      intro q hq
      rcases List.mem_cons.mp hq with rfl | hm
      · exact ha
      · exact hpre q hm

lemma setStatusFirst_append (pre : List Project) (p : Project)
    (post : List Project) (id : String) (status : ProjectStatus)
    (hpre : ∀ q ∈ pre, q.id ≠ id) (hp : p.id = id) :
    setStatusFirst (pre ++ p :: post) id status =
      pre ++ { p with status := status } :: post := by
  induction pre with
  | nil => simp [setStatusFirst, hp]
  | cons a l ih =>
    have ha : (a.id == id) = false := by
      simpa using hpre a (List.mem_cons_self a l)
    simp only [List.cons_append, setStatusFirst, ha, Bool.false_eq_true,
      if_false, List.cons.injEq, true_and]
    exact ih fun q hq => hpre q (List.mem_cons_of_mem a hq)

lemma filter_ne_nil_of_match (id : String) (ps : List Project)
    (h : ∃ p ∈ ps, p.id = id) :
    ps.filter (fun p => p.id == id) ≠ [] := by
  rcases h with ⟨p, hp, hpid⟩
  intro hfil
  have hmem : p ∈ ps.filter (fun p => p.id == id) :=
    List.mem_filter.mpr ⟨hp, by simp [hpid]⟩
  rw [hfil] at hmem
  exact absurd hmem (List.not_mem_nil p)

/-- C3: `updateProject` on a store containing the id: the project list
decomposes as `pre ++ p :: post` with `p` the first match; the call succeeds
and replaces exactly `p`'s status, keeping `p`'s id, title, description and
people, every project of `pre` and `post` (hence all other projects, the
length and the insertion order), and the listener list unchanged. -/
theorem updateProject_first_match (st : StoreState) (id : String)
    (status : ProjectStatus) (h : ∃ p ∈ st.projects, p.id = id) :
    ∃ pre p post,
      st.projects = pre ++ p :: post ∧
      (∀ q ∈ pre, q.id ≠ id) ∧
      p.id = id ∧
      updateProject st id status =
        Except.ok
          ({ projects := pre ++ { p with status := status } :: post,
             listeners := st.listeners },
           st.listeners.map fun l =>
             { listener := l,
               snapshot := pre ++ { p with status := status } :: post }) := by
  obtain ⟨pre, p, post, hps, hpre, hp⟩ := exists_first_match id st.projects h
  refine ⟨pre, p, post, hps, hpre, hp, ?_⟩
  have hset : setStatusFirst st.projects id status =
      pre ++ { p with status := status } :: post := by
    rw [hps]
    exact setStatusFirst_append pre p post id status hpre hp
  have hfil := filter_ne_nil_of_match id st.projects h
  unfold updateProject
  rcases hcase : st.projects.filter (fun q => q.id == id) with _ | ⟨a, as⟩
  · exact absurd hcase hfil
  · rw [hcase]
    simp only [notifyAll, hset]

theorem updateProject_first_match_witness :
    (∃ p ∈ [Project.mk "a" "t" "d" 1 ProjectStatus.ACTIVE], p.id = "a") ∧
    updateProject
        { projects := [Project.mk "a" "t" "d" 1 ProjectStatus.ACTIVE],
          listeners := [5] } "a" ProjectStatus.FINISHED =
      Except.ok
        ({ projects := [Project.mk "a" "t" "d" 1 ProjectStatus.FINISHED],
           listeners := [5] },
         [{ listener := 5,
            snapshot := [Project.mk "a" "t" "d" 1 ProjectStatus.FINISHED] }]) := by
  have hex : ∃ p ∈ [Project.mk "a" "t" "d" 1 ProjectStatus.ACTIVE], p.id = "a" :=
    ⟨Project.mk "a" "t" "d" 1 ProjectStatus.ACTIVE, by simp, rfl⟩
  refine ⟨hex, ?_⟩
  obtain ⟨pre, p, post, hps, hpre, hp, heq⟩ :=
    updateProject_first_match
      { projects := [Project.mk "a" "t" "d" 1 ProjectStatus.ACTIVE],
        listeners := [5] } "a" ProjectStatus.FINISHED hex
  rcases pre with _ | ⟨x, xs⟩
  · rw [List.nil_append] at hps heq
    injection hps with h1 h2
    subst h1
    subst h2
    simpa using heq
  · rw [List.cons_append] at hps
    injection hps with h1 h2
    exact absurd h2.symm (by simp)

/-- C4: `addProject` appends exactly one project: the new list is one
longer, its prefix is the old list unchanged (same projects, same
positions), and the appended element carries the argument title,
description and people with status ACTIVE (and the freshly drawn id). -/
theorem addProject_appends (st : StoreState) (newId title description : String)
    (numPeople : Int) :
    (addProject st newId title description numPeople).1.projects.length =
      st.projects.length + 1 ∧
    (addProject st newId title description numPeople).1.projects.take
      st.projects.length = st.projects ∧
    (addProject st newId title description numPeople).1.projects.drop
      st.projects.length =
      [{ id := newId, title := title, description := description,
         people := numPeople, status := ProjectStatus.ACTIVE }] := by
  refine ⟨by simp [addProject], ?_, ?_⟩
  · exact List.take_left st.projects _
  · exact List.drop_left st.projects _

/-- C5 (counterexample): project ids are drawn from
`Math.random().toString()` and the code does nothing to rule out a repeated
draw: when the drawn id equals an id already in the store, `addProject`
leaves the store with two projects sharing one id. -/
theorem addProject_duplicate_id_counterexample :
    ¬ ((addProject
          { projects := [Project.mk "0.123" "t" "d" 1 ProjectStatus.ACTIVE],
            listeners := [] } "0.123" "u" "e" 2).1.projects.map
        Project.id).Nodup := by
  decide

/-- C5 (amended): `addProject` preserves id-uniqueness only under the
assumption that the drawn id differs from every stored id; the code itself
does not guarantee that assumption (a repeated `Math.random` draw violates
it, see the counterexample). -/
theorem addProject_fresh_id_unique (st : StoreState)
    (newId title description : String) (numPeople : Int)
    (hfresh : ∀ p ∈ st.projects, p.id ≠ newId)
    (hnodup : (st.projects.map Project.id).Nodup) :
    ((addProject st newId title description numPeople).1.projects.map
        Project.id).Nodup := by
  simp only [addProject, List.map_append, List.map_cons, List.map_nil]
  refine List.nodup_append.mpr ⟨hnodup, List.nodup_singleton _, ?_⟩
  intro x hx hx2
  rcases List.mem_map.mp hx with ⟨p, hp, rfl⟩
  exact hfresh p hp (List.mem_singleton.mp hx2)

theorem addProject_fresh_id_unique_witness :
    (∀ p ∈ [Project.mk "a" "t" "d" 1 ProjectStatus.ACTIVE], p.id ≠ "b") ∧
    (([Project.mk "a" "t" "d" 1 ProjectStatus.ACTIVE].map Project.id).Nodup) ∧
    ((addProject
        { projects := [Project.mk "a" "t" "d" 1 ProjectStatus.ACTIVE],
          listeners := [] } "b" "u" "e" 2).1.projects.map Project.id).Nodup :=
  ⟨by decide, by decide,
   addProject_fresh_id_unique
     { projects := [Project.mk "a" "t" "d" 1 ProjectStatus.ACTIVE],
       listeners := [] } "b" "u" "e" 2 (by decide) (by decide)⟩

/-- C6: every mutation — an `addProject` call, and an `updateProject` call
that finds its id (one returning `Except.ok`) — invokes each registered
listener exactly once and in registration order (the notification trace's
listeners are exactly the registration list), and every event carries the
complete current (post-mutation) project list, never a diff. -/
theorem mutations_notify_listeners_in_order (st : StoreState)
    (newId title description : String) (numPeople : Int)
    (id : String) (status : ProjectStatus) :
    ((addProject st newId title description numPeople).2.map
        Notification.listener = st.listeners ∧
      ∀ e ∈ (addProject st newId title description numPeople).2,
        e.snapshot = (addProject st newId title description numPeople).1.projects) ∧
    ∀ st2 notifs, updateProject st id status = Except.ok (st2, notifs) →
      notifs.map Notification.listener = st.listeners ∧
      ∀ e ∈ notifs, e.snapshot = st2.projects := by
  refine ⟨⟨?_, ?_⟩, ?_⟩
  · simp [addProject, notifyAll, List.map_map, Function.comp_def]
  · intro e he
    simp only [addProject, notifyAll, List.mem_map] at he
    obtain ⟨l, hl, rfl⟩ := he
    rfl
  · intro st2 notifs hupd
    unfold updateProject at hupd
    rcases hcase : st.projects.filter (fun p => p.id == id) with _ | ⟨a, as⟩
    · rw [hcase] at hupd
      cases hupd
    · rw [hcase] at hupd
      simp only [Except.ok.injEq, Prod.mk.injEq] at hupd
      obtain ⟨h1, h2⟩ := hupd
      subst h1
      subst h2
      constructor
      · simp [notifyAll, List.map_map, Function.comp_def]
      · intro e he
        simp only [notifyAll, List.mem_map] at he
        obtain ⟨l, hl, rfl⟩ := he
        rfl

theorem mutations_notify_listeners_in_order_witness :
    updateProject
        { projects := [Project.mk "a" "t" "d" 1 ProjectStatus.ACTIVE],
          listeners := [3, 7] } "a" ProjectStatus.FINISHED =
      Except.ok
        ({ projects := [Project.mk "a" "t" "d" 1 ProjectStatus.FINISHED],
           listeners := [3, 7] },
         [{ listener := 3,
            snapshot := [Project.mk "a" "t" "d" 1 ProjectStatus.FINISHED] },
          { listener := 7,
            snapshot := [Project.mk "a" "t" "d" 1 ProjectStatus.FINISHED] }]) ∧
    (addProject
        { projects := [Project.mk "a" "t" "d" 1 ProjectStatus.ACTIVE],
          listeners := [3, 7] } "b" "u" "e" 2).2.map Notification.listener =
      [3, 7] ∧
    ([{ listener := 3,
        snapshot := [Project.mk "a" "t" "d" 1 ProjectStatus.FINISHED] },
      { listener := 7,
        snapshot := [Project.mk "a" "t" "d" 1 ProjectStatus.FINISHED] }].map
      Notification.listener) = [3, 7] := by
  have hupd : updateProject
      { projects := [Project.mk "a" "t" "d" 1 ProjectStatus.ACTIVE],
        listeners := [3, 7] } "a" ProjectStatus.FINISHED =
      Except.ok
        ({ projects := [Project.mk "a" "t" "d" 1 ProjectStatus.FINISHED],
           listeners := [3, 7] },
         [{ listener := 3,
            snapshot := [Project.mk "a" "t" "d" 1 ProjectStatus.FINISHED] },
          { listener := 7,
            snapshot := [Project.mk "a" "t" "d" 1 ProjectStatus.FINISHED] }]) := rfl
  have happ := mutations_notify_listeners_in_order
    { projects := [Project.mk "a" "t" "d" 1 ProjectStatus.ACTIVE],
      listeners := [3, 7] } "b" "u" "e" 2 "a" ProjectStatus.FINISHED
  exact ⟨hupd, happ.1.1,
    (happ.2
      { projects := [Project.mk "a" "t" "d" 1 ProjectStatus.FINISHED],
        listeners := [3, 7] }
      [{ listener := 3,
         snapshot := [Project.mk "a" "t" "d" 1 ProjectStatus.FINISHED] },
       { listener := 7,
         snapshot := [Project.mk "a" "t" "d" 1 ProjectStatus.FINISHED] }]
      hupd).1⟩

lemma filter_map_snapshot (l : Nat) (ps : List Project) :
    ∀ xs : List Nat, l ∉ xs →
      ((xs ++ [l]).map (fun x => Notification.mk x ps)).filter
        (fun e => e.listener == l) = [Notification.mk l ps] := by
  intro xs
  induction xs with
  | nil => simp
  | cons a t ih =>
    intro hl
    have ha : ¬ (a = l) := by
      intro h
      subst h
      exact hl (List.mem_cons_self a t)
    have hpa : ¬ ((fun e : Notification => e.listener == l)
        { listener := a, snapshot := ps } = true) := by
      simp [ha]
    simp only [List.cons_append, List.map_cons]
    rw [@List.filter_cons_of_neg Notification (fun e => e.listener == l)
      { listener := a, snapshot := ps }
      (List.map (fun x => { listener := x, snapshot := ps }) (t ++ [l])) hpa]
    exact ih fun hm => hl (List.mem_cons_of_mem a hm)

/-- C7: after registering a fresh listener, two consecutive `addProject`
calls deliver exactly two notifications to that listener — exactly one per
call, each carrying the full post-call project list — and the snapshots
grow monotonically: the second snapshot is the first with the newly added
project appended. -/
theorem two_adds_two_notifications (st : StoreState) (l : Nat)
    (hl : l ∉ st.listeners) (id1 t1 d1 : String) (n1 : Int)
    (id2 t2 d2 : String) (n2 : Int) :
    ((addProject (addListener st l) id1 t1 d1 n1).2.filter
        (fun e => e.listener == l)) =
      [{ listener := l,
         snapshot := (addProject (addListener st l) id1 t1 d1 n1).1.projects }] ∧
    ((addProject (addProject (addListener st l) id1 t1 d1 n1).1
        id2 t2 d2 n2).2.filter (fun e => e.listener == l)) =
      [{ listener := l,
         snapshot := (addProject (addProject (addListener st l) id1 t1 d1 n1).1
           id2 t2 d2 n2).1.projects }] ∧
    (addProject (addProject (addListener st l) id1 t1 d1 n1).1
        id2 t2 d2 n2).1.projects =
      (addProject (addListener st l) id1 t1 d1 n1).1.projects ++
        [{ id := id2, title := t2, description := d2, people := n2,
           status := ProjectStatus.ACTIVE }] :=
  ⟨filter_map_snapshot l _ st.listeners hl,
   filter_map_snapshot l _ st.listeners hl, rfl⟩

theorem two_adds_two_notifications_witness :
    (0 : Nat) ∉ ([] : List Nat) ∧
    (((addProject (addListener { projects := [], listeners := [] } 0)
          "i1" "t1" "d1" 1).2.filter (fun e => e.listener == 0)) =
      [{ listener := 0,
         snapshot := (addProject (addListener { projects := [], listeners := [] } 0)
           "i1" "t1" "d1" 1).1.projects }] ∧
    ((addProject (addProject (addListener { projects := [], listeners := [] } 0)
          "i1" "t1" "d1" 1).1 "i2" "t2" "d2" 2).2.filter
        (fun e => e.listener == 0)) =
      [{ listener := 0,
         snapshot := (addProject (addProject
           (addListener { projects := [], listeners := [] } 0)
           "i1" "t1" "d1" 1).1 "i2" "t2" "d2" 2).1.projects }] ∧
    (addProject (addProject (addListener { projects := [], listeners := [] } 0)
        "i1" "t1" "d1" 1).1 "i2" "t2" "d2" 2).1.projects =
      (addProject (addListener { projects := [], listeners := [] } 0)
        "i1" "t1" "d1" 1).1.projects ++
        [{ id := "i2", title := "t2", description := "d2", people := 2,
           status := ProjectStatus.ACTIVE }]) :=
  ⟨by simp,
   two_adds_two_notifications { projects := [], listeners := [] } 0 (by simp)
     "i1" "t1" "d1" 1 "i2" "t2" "d2" 2⟩

/-- C9: the rendered people-count string is `"1 person assigned"` exactly
when the project's people field is `1`, and the decimal people count
followed by `" people assigned"` otherwise. -/
theorem peopleCount_pluralized (project : Project) :
    (project.people = 1 → peopleCount project = "1 person assigned") ∧
    (project.people ≠ 1 →
      peopleCount project = Int.repr project.people ++ " people assigned") := by
  constructor
  · intro h
    simp [peopleCount, h]
  · intro h
    simp [peopleCount, h]

theorem peopleCount_pluralized_witness :
    peopleCount (Project.mk "a" "t" "d" 1 ProjectStatus.ACTIVE) =
      "1 person assigned" ∧
    peopleCount (Project.mk "b" "t" "d" 3 ProjectStatus.ACTIVE) =
      Int.repr 3 ++ " people assigned" :=
  ⟨(peopleCount_pluralized (Project.mk "a" "t" "d" 1 ProjectStatus.ACTIVE)).1 rfl,
   (peopleCount_pluralized (Project.mk "b" "t" "d" 3 ProjectStatus.ACTIVE)).2
     (by decide)⟩
